import Mathlib

/-!
Verification model of the data-resolution and normalization layer of the
FHIR questionnaire-to-PDF tool.

The embedding mirrors two JavaScript modules:

* the value-set expansion script (`expand_definitions.js`): resource index
  construction (`loadResources`), value-set resolution
  (`getOptionsFromValueSet`), the recursive item walk (`processItems`) and
  the per-file persistence pass (`expandAll`'s rescan loop, here
  `expandFile`);
* the report generator (`generate_questionnaireresponse_pdf.js`): the
  questionnaire library loader (`loadLibraries`, here `regQuestionnaires` /
  `loadLibFile`), the bundle normalizer (`normalizeFHIRData`), and the
  per-response pairing loop building `combinedQRData`.

JSON objects are modelled as records with `Option` fields (an absent or
`null` key is `none`).  JavaScript truthiness is modelled explicitly where
the source relies on it: a string is truthy iff non-empty, an object or an
array (even empty) is truthy iff present.
-/

namespace FhirPdf

/-- `s.split('|')[0]` : the prefix of `s` before the first `|`
(the whole string when there is no `|`), computed on the character list
so that it evaluates by kernel reduction. -/
def stripVersion (s : String) : String :=
  ⟨s.data.takeWhile (fun c => c ≠ '|')⟩

/-- JS truthiness of a string-valued field: present and non-empty. -/
def optTruthy : Option String → Bool
  | none => false
  | some s => !(s == "")

/-- The `valueCoding` payload of an answer option:
`{ system, code, display }`. -/
structure ValueCoding where
  system : Option String
  code : Option String
  display : Option String
deriving DecidableEq, Repr

/-- An inline answer option `{ valueCoding: {...} }`. -/
structure AnswerOption where
  valueCoding : ValueCoding
deriving DecidableEq, Repr

/-- A coding concept as found in `expansion.contains` entries, in
`compose.include` rule `concept` lists and in `CodeSystem.concept` lists.
The expansion script reads at most `system`, `code` and `display`. -/
structure Concept where
  system : Option String
  code : Option String
  display : Option String
deriving DecidableEq, Repr

/-- A `compose.include` inclusion rule: an optional `system` and an
optional explicit `concept` list. -/
structure IncludeRule where
  system : Option String
  concept : Option (List Concept)
deriving DecidableEq, Repr

/-- The `expansion` object of a ValueSet; only `contains` is read. -/
structure ExpansionObj where
  contains : Option (List Concept)
deriving DecidableEq, Repr

/-- The `compose` object of a ValueSet; only the `include` list is read
(`incl` here because `include` is a Lean keyword). -/
structure ComposeObj where
  incl : Option (List IncludeRule)
deriving DecidableEq, Repr

/-- A questionnaire item node: `answerValueSet` (external reference),
`answerOption` (inline options) and the child list `item`.
Recursive, hence an inductive with explicit accessors. -/
inductive Item where
  | mk (answerValueSet : Option String) (answerOption : Option (List AnswerOption))
       (item : Option (List Item)) : Item
deriving Repr

/-- The `answerValueSet` field of an item. -/
def Item.answerValueSet : Item → Option String
  | .mk a _ _ => a

/-- The `answerOption` field of an item. -/
def Item.answerOption : Item → Option (List AnswerOption)
  | .mk _ o _ => o

/-- The child `item` list of an item. -/
def Item.item : Item → Option (List Item)
  | .mk _ _ c => c

/-- A FHIR resource record carrying exactly the fields the core layer
reads.  Absent JSON keys are `none`.  The payload types of `name` (a list
of HumanName objects) and `category` (a list of CodeableConcepts) are
never inspected by the modelled code, which only constructs the `null`
sentinels, so they are modelled as opaque optional strings. -/
structure Resource where
  resourceType : String := ""
  id : Option String := none
  url : Option String := none
  name : Option String := none
  category : Option String := none
  title : Option String := none
  status : Option String := none
  questionnaire : Option String := none
  expansion : Option ExpansionObj := none
  compose : Option ComposeObj := none
  concept : Option (List Concept) := none
  item : Option (List Item) := none

/-- The canonical resource index (`resourceMap` / `questionnaireMap`):
a JS `Map` viewed through `get`, i.e. a partial function from URL strings
to resources. -/
abbrev Index := String → Option Resource

/-- `Map.set`: bind key `k` to `v`, overwriting any earlier binding. -/
def mapSet (m : Index) (k : String) (v : Resource) : Index :=
  fun k' => if k' = k then some v else m k'

/-- The empty index. -/
def emptyIndex : Index := fun _ => none

/-- One iteration of the `loadResources` item loop:
`if (!r || !r.url) return; resourceMap.set(r.url, r);
resourceMap.set(r.url.split('|')[0], r);`.
The argument is `none` when the bundle entry had no `resource` body. -/
def registerResource (m : Index) (x : Option Resource) : Index :=
  match x with
  | none => m
  | some r =>
    match r.url with
    | none => m
    | some u => if u = "" then m else mapSet (mapSet m u r) (stripVersion u) r

/-- `loadResources` over the flattened stream of (possibly missing)
resources extracted from the definitional files. -/
def loadResources (init : Index) (xs : List (Option Resource)) : Index :=
  xs.foldl registerResource init

/-- The keys written by registering one (possibly missing) resource. -/
def regKeys : Option Resource → List String
  | none => []
  | some r =>
    match r.url with
    | none => []
    | some u => if u = "" then [] else [u, stripVersion u]

/-- `expansion.contains` branch: map each entry to an option preserving
its own `system`, `code`, `display`. -/
def containsOptions (l : List Concept) : List AnswerOption :=
  l.map (fun c => { valueCoding := { system := c.system, code := c.code, display := c.display } })

/-- The options contributed by one `compose.include` rule:
an explicit `concept` list (even empty, JS arrays are truthy) yields one
option per concept stamped with the rule's `system`; otherwise a truthy
`system` is looked up in the index and, when the found resource carries a
`concept` list, every concept contributes with the rule's system; any
other rule contributes nothing. -/
def ruleOptions (idx : Index) (inc : IncludeRule) : List AnswerOption :=
  match inc.concept with
  | some cs =>
    cs.map (fun c => { valueCoding := { system := inc.system, code := c.code, display := c.display } })
  | none =>
    match inc.system with
    | none => []
    | some s =>
      if s = "" then []
      else
        match idx s with
        | none => []
        | some cs =>
          match cs.concept with
          | none => []
          | some l =>
            l.map (fun c => { valueCoding := { system := inc.system, code := c.code, display := c.display } })

/-- The accumulated `options` list of `getOptionsFromValueSet` once the
ValueSet has been found: `vs.expansion && vs.expansion.contains` wins,
else `vs.compose && vs.compose.include` accumulates rule by rule,
else the list stays empty. -/
def collectOptions (idx : Index) (vs : Resource) : List AnswerOption :=
  match vs.expansion.bind ExpansionObj.contains with
  | some l => containsOptions l
  | none =>
    match vs.compose.bind ComposeObj.incl with
    | some rules => (rules.map (ruleOptions idx)).flatten
    | none => []

/-- `getOptionsFromValueSet(vsUrl)`: strip the version, look the clean URL
up, `null` when missing, otherwise accumulate options and return `null`
when the accumulated list is empty. -/
def getOptionsFromValueSet (idx : Index) (vsUrl : String) : Option (List AnswerOption) :=
  match idx (stripVersion vsUrl) with
  | none => none
  | some vs =>
    let options := collectOptions idx vs
    if options.length > 0 then some options else none

mutual

/-- The body of the `processItems` forEach for a single item: recurse into
children (`if (item.item)` — arrays are truthy even when empty), then on a
truthy `answerValueSet` resolve it; on a non-null result set
`answerOption` and delete `answerValueSet`, otherwise leave the fields
unchanged. -/
def processItem (idx : Index) : Item → Item
  | .mk avs ao children =>
    let children' : Option (List Item) :=
      match children with
      | none => none
      | some l => some (processList idx l)
    match avs with
    | none => .mk none ao children'
    | some u =>
      if u = "" then .mk (some u) ao children'
      else
        match getOptionsFromValueSet idx u with
        | some opts => .mk none (some opts) children'
        | none => .mk (some u) ao children'

/-- The `items.forEach` loop of `processItems`. -/
def processList (idx : Index) : List Item → List Item
  | [] => []
  | it :: rest => processItem idx it :: processList idx rest

end

/-- `processItems(items)`: `if (!items) return;` then the forEach walk
(an empty array is truthy and is walked, a no-op). -/
def processItems (idx : Index) : Option (List Item) → Option (List Item)
  | none => none
  | some l => some (processList idx l)

/-- A top-level parsed JSON file or input payload: the object seen as a
resource, together with its `entry` field when present.  Each entry is
represented by its `resource` body (`none` when the entry lacks one,
matching `json.entry.map(e => e.resource)`). -/
structure Payload where
  resource : Resource
  entry : Option (List (Option Resource)) := none

/-- In-place expansion of one resource during the persistence rescan:
only Questionnaires get their `item` tree processed. -/
def expandResource (idx : Index) (r : Resource) : Resource :=
  if r.resourceType = "Questionnaire" then { r with item := processItems idx r.item } else r

/-- Whether a bundle entry makes `changed` true in the rescan loop:
`e.resource && e.resource.resourceType === 'Questionnaire'`. -/
def entryIsQuestionnaire : Option Resource → Bool
  | none => false
  | some r => r.resourceType == "Questionnaire"

/-- The per-file persistence pass of `expandAll`'s rescan loop: `some`
with the content written back when the file is rewritten, `none` when the
file is left untouched.  A bare Questionnaire is always rewritten; a
Bundle with an `entry` list is rewritten iff at least one entry holds a
Questionnaire resource; anything else is never written. -/
def expandFile (idx : Index) (p : Payload) : Option Payload :=
  if p.resource.resourceType = "Questionnaire" then
    some { p with resource := { p.resource with item := processItems idx p.resource.item } }
  else if p.resource.resourceType = "Bundle" then
    match p.entry with
    | none => none
    | some es =>
      if es.any entryIsQuestionnaire then
        some { p with entry := some (es.map (Option.map (expandResource idx))) }
      else none
  else none

/-- One registration of the `loadLibraries` item loop:
`if (r.resourceType === 'Questionnaire' && r.url) { set(url); set(stripped) }`. -/
def registerQ (m : Index) (r : Resource) : Index :=
  if r.resourceType = "Questionnaire" then
    match r.url with
    | none => m
    | some u => if u = "" then m else mapSet (mapSet m u r) (stripVersion u) r
  else m

/-- The `items.forEach` loop of `loadLibraries`.  Unlike `loadResources`
there is no `!r` guard: an entry without a resource body makes
`r.resourceType` throw a TypeError, the per-file `catch` fires, and the
registrations already performed for earlier entries are kept while the
remaining entries of the file are never processed. -/
def regQuestionnaires (m : Index) : List (Option Resource) → Index
  | [] => m
  | none :: _ => m
  | some r :: rest => regQuestionnaires (registerQ m r) rest

/-- `loadLibraries` restricted to a single parsed file. -/
def loadLibFile (m : Index) (p : Payload) : Index :=
  let items : List (Option Resource) :=
    if p.resource.resourceType = "Bundle" then
      match p.entry with
      | some es => es
      | none => [some p.resource]
    else [some p.resource]
  regQuestionnaires m items

/-- `loadResources` restricted to a single parsed file (the item loop has
the `!r` guard, so missing entry bodies are skipped silently). -/
def loadResFile (m : Index) (p : Payload) : Index :=
  let items : List (Option Resource) :=
    if p.resource.resourceType = "Bundle" then
      match p.entry with
      | some es => es
      | none => [some p.resource]
    else [some p.resource]
  loadResources m items

/-- The resource list of `normalizeFHIRData`:
`jsonData.entry.map(e => e.resource).filter(r => r)` for a Bundle with an
`entry` field, else the singleton `[jsonData]`. -/
def extractResources (p : Payload) : List Resource :=
  if p.resource.resourceType = "Bundle" then
    match p.entry with
    | some es => es.filterMap id
    | none => [p.resource]
  else [p.resource]

/-- The placeholder patient `{ resourceType: "Patient", name: null }`
created when the payload has no Patient resource. -/
def patientPlaceholder : Resource :=
  { resourceType := "Patient", name := none }

/-- The placeholder care plan `{ resourceType: "CarePlan", category: null }`. -/
def carePlanPlaceholder : Resource :=
  { resourceType := "CarePlan", category := none }

/-- The stub `{ resourceType: "Questionnaire", status: "active", item: [] }`
substituted when a response's definition cannot be resolved. -/
def questionnaireStub : Resource :=
  { resourceType := "Questionnaire", status := some "active", item := some [] }

/-- `questionnaireMap.get(ref) || questionnaireMap.get(ref.split('|')[0])`
(a found resource object is always truthy). -/
def lookupRef (qmap : Index) (ref : String) : Option Resource :=
  match qmap ref with
  | some q => some q
  | none => qmap (stripVersion ref)

/-- Resolution of the questionnaire for one response:
`if (currentQR.questionnaire) { lookupRef }` — the reference must be a
truthy (non-empty) string. -/
def resolveQForQR (qmap : Index) (qr : Resource) : Option Resource :=
  match qr.questionnaire with
  | none => none
  | some ref => if ref = "" then none else lookupRef qmap ref

/-- The reconciled output of `normalizeFHIRData`. -/
structure NormalizedUnit where
  fileName : String
  patient : Resource
  carePlan : Resource
  questionnaire : Option Resource
  questionnaireResponse : Option Resource
  questionnaireResponses : List Resource

/-- The body of `normalizeFHIRData` once the resource list has been
extracted, parameterized by the payload's `id` (used for `fileName`). -/
def normCore (qmap : Index) (pid : Option String) (resources : List Resource) : NormalizedUnit :=
  let patient0 := resources.find? (fun r => r.resourceType == "Patient")
  let carePlan0 := resources.find? (fun r => r.resourceType == "CarePlan")
  let questionnaireResponses := resources.filter (fun r => r.resourceType == "QuestionnaireResponse")
  let qResponse := questionnaireResponses.head?
  let questionnaire0 := resources.find? (fun r => r.resourceType == "Questionnaire")
  let questionnaire1 : Option Resource :=
    match questionnaire0 with
    | some q => some q
    | none =>
      match qResponse with
      | none => none
      | some qr => resolveQForQR qmap qr
  let questionnaire2 : Option Resource :=
    match qResponse, questionnaire1 with
    | some _, none => some questionnaireStub
    | _, q => q
  { fileName :=
      match pid with
      | none => "report"
      | some s => if s = "" then "report" else s,
    patient := patient0.getD patientPlaceholder,
    carePlan := carePlan0.getD carePlanPlaceholder,
    questionnaire := questionnaire2,
    questionnaireResponse := qResponse,
    questionnaireResponses := questionnaireResponses }

/-- `normalizeFHIRData(jsonData)` of the multi-response generator. -/
def normalizeFHIRData (qmap : Index) (p : Payload) : NormalizedUnit :=
  normCore qmap p.resource.id (extractResources p)

/-- One element of the `combinedQRData` array built by the main loop. -/
structure CombinedEntry where
  questionnaireResponse : Resource
  questionnaire : Resource
  title : String

/-- `s.split('/').pop()` : the suffix of `s` after the last `/`
(the whole string when there is no `/`, the empty string when `s` ends
with `/`). -/
def lastSegment (s : String) : String :=
  ⟨(s.data.reverse.takeWhile (fun c => c ≠ '/')).reverse⟩

/-- `currentQR.questionnaire?.split('/').pop().split('|')[0]` :
the last `/`-segment of the reference with any `|version` suffix
stripped; `none` when the reference is absent. -/
def refTitle : Option String → Option String
  | none => none
  | some s => some (stripVersion (lastSegment s))

/-- The body of the `combinedQRData` loop for the response at 1-based
position `n`: resolve the questionnaire (stub on failure) and compute
`title = questionnaire.title || refSegment || "Questionnaire N"`, where
`||` skips empty strings. -/
def mkCombined (qmap : Index) (n : Nat) (qr : Resource) : CombinedEntry :=
  let q := (resolveQForQR qmap qr).getD questionnaireStub
  let positional := "Questionnaire " ++ toString n
  let fromRef : String :=
    match refTitle qr.questionnaire with
    | none => positional
    | some s => if s = "" then positional else s
  let title : String :=
    match q.title with
    | none => fromRef
    | some t => if t = "" then fromRef else t
  { questionnaireResponse := qr, questionnaire := q, title := title }

/-- The indexed `for` loop building `combinedQRData`, carrying the
1-based position. -/
def combineQRs (qmap : Index) : Nat → List Resource → List CombinedEntry
  | _, [] => []
  | n, qr :: rest => mkCombined qmap n qr :: combineQRs qmap (n + 1) rest

/-- The full `combinedQRData` array for a list of responses. -/
def combinedQRData (qmap : Index) (qrs : List Resource) : List CombinedEntry :=
  combineQRs qmap 1 qrs

/-! ### Helper lemmas -/

mutual

/-- Processing an item twice with the same index is the same as
processing it once. -/
theorem processItem_idem (idx : Index) : (it : Item) → processItem idx (processItem idx it) = processItem idx it
  | .mk avs ao none => by
    cases avs with
    | none => simp [processItem]
    | some u =>
      by_cases hu : u = ""
      · simp [processItem, hu]
      · cases hopt : getOptionsFromValueSet idx u with
        | none => simp [processItem, hu, hopt]
        | some opts => simp [processItem, hu, hopt]
  | .mk avs ao (some l) => by
    have hc := processList_idem idx l
    cases avs with
    | none => simp [processItem, hc]
    | some u =>
      by_cases hu : u = ""
      · simp [processItem, hu, hc]
      · cases hopt : getOptionsFromValueSet idx u with
        | none => simp [processItem, hu, hopt, hc]
        | some opts => simp [processItem, hu, hopt, hc]

/-- Processing an item list twice with the same index is the same as
processing it once. -/
theorem processList_idem (idx : Index) : (l : List Item) → processList idx (processList idx l) = processList idx l
  | [] => by simp [processList]
  | it :: rest => by
    have h1 := processItem_idem idx it
    have h2 := processList_idem idx rest
    simp [processList, h1, h2]

end

/-! ### Concrete fixtures used by witnesses and counterexamples -/

/-- A resource registered under the versioned URL `u|1`. -/
def resA : Resource := { resourceType := "ValueSet", id := some "A", url := some "u|1" }

/-- A second resource whose stripped URL collides with `resA`'s. -/
def resB : Resource := { resourceType := "ValueSet", id := some "B", url := some "u|2" }

/-- The index built from `resA` then `resB`. -/
def idxAB : Index := loadResources emptyIndex [some resA, some resB]

/-- A ValueSet whose pre-expanded `expansion.contains` list is empty. -/
def vsEmptyContains : Resource :=
  { resourceType := "ValueSet", url := some "u", expansion := some { contains := some [] } }

/-- Index holding only `vsEmptyContains` under `u`. -/
def idxEmptyContains : Index := mapSet emptyIndex "u" vsEmptyContains

/-- An item referencing `u` via `answerValueSet`. -/
def itemU : Item := .mk (some "u") none none

/-- A ValueSet with a one-entry `expansion.contains` list. -/
def vsOne : Resource :=
  { resourceType := "ValueSet", url := some "http://vs"
    expansion := some { contains := some [{ system := some "s", code := some "c", display := some "D" }] } }

/-- Index holding only `vsOne` under `http://vs`. -/
def idxOne : Index := mapSet emptyIndex "http://vs" vsOne

/-- An item referencing `http://vs` via `answerValueSet`. -/
def itemVs : Item := .mk (some "http://vs") none none

/-- A ValueSet composed of an explicit-concept rule for `sys1` and a
system-only rule for `sys2`. -/
def vsCompose : Resource :=
  { resourceType := "ValueSet", url := some "http://vs5"
    compose := some { incl := some [
      { system := some "sys1", concept := some [{ system := none, code := some "a", display := some "A" }] },
      { system := some "sys2", concept := none }] } }

/-- The CodeSystem resource registered under `sys2`. -/
def csSys2 : Resource :=
  { resourceType := "CodeSystem", url := some "sys2"
    concept := some [{ system := none, code := some "b", display := some "B" }] }

/-- Index holding `vsCompose` and `csSys2`. -/
def idxCompose : Index := mapSet (mapSet emptyIndex "http://vs5" vsCompose) "sys2" csSys2

/-- A bundle payload holding one QuestionnaireResponse and no Patient. -/
def pNoPatient : Payload :=
  { resource := { resourceType := "Bundle", id := some "bdl" }
    entry := some [some { resourceType := "QuestionnaireResponse" }] }

/-- A first QuestionnaireResponse fixture. -/
def qrOne : Resource := { resourceType := "QuestionnaireResponse", id := some "r1" }

/-- A second QuestionnaireResponse fixture. -/
def qrTwo : Resource :=
  { resourceType := "QuestionnaireResponse", id := some "r2", questionnaire := some "http://q/two" }

/-- A bundle payload holding a Patient and two QuestionnaireResponses. -/
def pTwoResponses : Payload :=
  { resource := { resourceType := "Bundle", id := some "two" }
    entry := some [some { resourceType := "Patient" }, some qrOne, some qrTwo] }

/-- A questionnaire whose `title` key is present but empty. -/
def qTitleEmpty : Resource :=
  { resourceType := "Questionnaire", url := some "http://q/def", title := some "" }

/-- Index holding `qTitleEmpty` under its URL. -/
def qmapTitleEmpty : Index := mapSet emptyIndex "http://q/def" qTitleEmpty

/-- A response referencing `qTitleEmpty`. -/
def qrRefDef : Resource :=
  { resourceType := "QuestionnaireResponse", questionnaire := some "http://q/def" }

/-- A questionnaire with a proper title. -/
def qGoodTitle : Resource :=
  { resourceType := "Questionnaire", url := some "http://g", title := some "T" }

/-- Index holding `qGoodTitle` under its URL. -/
def qmapGoodTitle : Index := mapSet emptyIndex "http://g" qGoodTitle

/-- A response referencing `qGoodTitle`. -/
def qrRefGood : Resource :=
  { resourceType := "QuestionnaireResponse", questionnaire := some "http://g" }

/-- A response with no questionnaire reference at all. -/
def qrNoRef : Resource := { resourceType := "QuestionnaireResponse" }

/-- A questionnaire definition fixture registered under `http://q1`. -/
def qLib1 : Resource := { resourceType := "Questionnaire", url := some "http://q1" }

/-- A questionnaire definition fixture registered under `http://q2`. -/
def qLib2 : Resource := { resourceType := "Questionnaire", url := some "http://q2" }

/-- A definitional bundle whose middle entry lacks a resource body. -/
def pDefectiveEntry : Payload :=
  { resource := { resourceType := "Bundle" }
    entry := some [some qLib1, none, some qLib2] }

/-! ### Helper lemmas about index registration -/

/-- Registering one resource leaves every key outside `regKeys` untouched. -/
theorem registerResource_not_regKeys (m : Index) (x : Option Resource) (k : String)
    (hk : k ∉ regKeys x) : registerResource m x k = m k := by
  cases x with
  | none => rfl
  | some r =>
    cases hurl : r.url with
    | none => simp [registerResource, hurl]
    | some u =>
      by_cases hu : u = ""
      · simp [registerResource, hurl, hu]
      · simp [regKeys, hurl, hu] at hk
        push_neg at hk
        simp [registerResource, hurl, hu, mapSet, hk.1, hk.2]

/-- Registering a whole list leaves every key never written untouched. -/
theorem loadResources_not_regKeys (m : Index) (xs : List (Option Resource)) (k : String)
    (hk : ∀ x ∈ xs, k ∉ regKeys x) : loadResources m xs k = m k := by
  induction xs generalizing m with
  | nil => rfl
  | cons x xs ih =>
    have hx := hk x (by simp)
    have hrest : ∀ y ∈ xs, k ∉ regKeys y := fun y hy => hk y (by simp [hy])
    have hstep : loadResources m (x :: xs) = loadResources (registerResource m x) xs := rfl
    rw [hstep]
    calc loadResources (registerResource m x) xs k = registerResource m x k := ih _ hrest
      _ = m k := registerResource_not_regKeys m x k hx

/-! ### Claims -/

/-- C1: if `getOptionsFromValueSet` finds no matching resource in the
index, or the accumulated option list is empty, it returns `none`
(an empty expansion result is treated identically to an unresolved one),
and `processItem` then leaves the item's own fields unchanged: it still
carries its `answerValueSet` and its `answerOption` is untouched. -/
theorem unresolved_or_empty_leaves_item_unchanged (idx : Index) (u : String) (it : Item) :
    (idx (stripVersion u) = none → getOptionsFromValueSet idx u = none)
    ∧ (∀ vs, idx (stripVersion u) = some vs → collectOptions idx vs = [] →
        getOptionsFromValueSet idx u = none)
    ∧ (getOptionsFromValueSet idx u = none → it.answerValueSet = some u →
        (processItem idx it).answerValueSet = some u
        ∧ (processItem idx it).answerOption = it.answerOption) := by
  refine ⟨?_, ?_, ?_⟩
  · intro h
    simp [getOptionsFromValueSet, h]
  · intro vs hvs hempty
    simp [getOptionsFromValueSet, hvs, hempty]
  · intro hnone havs
    obtain ⟨avs, ao, children⟩ := it
    cases havs
    by_cases hu : u = ""
    · subst hu
      cases children <;> simp [processItem, Item.answerValueSet, Item.answerOption]
    · cases children <;> simp [processItem, Item.answerValueSet, Item.answerOption, hu, hnone]

/-- C1 witness: with an empty index the reference is unresolved and a
concrete item keeps its `answerValueSet` and gains no `answerOption`. -/
theorem unresolved_or_empty_leaves_item_unchanged_witness :
    getOptionsFromValueSet emptyIndex "http://vs" = none
    ∧ (processItem emptyIndex (.mk (some "http://vs") none none)).answerValueSet = some "http://vs"
    ∧ (processItem emptyIndex (.mk (some "http://vs") none none)).answerOption = none := by
  have h := unresolved_or_empty_leaves_item_unchanged emptyIndex "http://vs"
    (.mk (some "http://vs") none none)
  have h1 : getOptionsFromValueSet emptyIndex "http://vs" = none := h.1 rfl
  exact ⟨h1, (h.2.2 h1 rfl).1, (h.2.2 h1 rfl).2⟩

/-- C2: expansion is idempotent — running `processItems` a second time on
the result of a first run with the same index changes nothing. -/
theorem processItems_idempotent (idx : Index) (items : Option (List Item)) :
    processItems idx (processItems idx items) = processItems idx items := by
  cases items with
  | none => rfl
  | some l => simp [processItems, processList_idem]

/-- C3 counterexample: `resA` is indexed with the versioned url `u|1`,
but after `resB` (url `u|2`) is registered, the stripped lookup `u`
returns `resB` while the full lookup `u|1` still returns `resA` — the
two lookups do not return the same resource. -/
theorem versioned_stripped_lookup_counterexample :
    idxAB "u|1" = some resA ∧ idxAB "u" = some resB ∧ resA ≠ resB := by
  refine ⟨rfl, rfl, fun h => ?_⟩
  have := congrArg Resource.id h
  simp [resA, resB] at this

/-- C3 amended: after index construction, a resource's full URL and its
version-stripped URL both resolve to that resource provided no
later-registered resource writes either key; registration always
overwrites silently (last-write-wins, no error). -/
theorem versioned_stripped_lookup_amended (init : Index) (pre post : List (Option Resource))
    (r : Resource) (u : String) (hu : r.url = some u) (hne : u ≠ "")
    (hpost : ∀ x ∈ post, u ∉ regKeys x ∧ stripVersion u ∉ regKeys x) :
    loadResources init (pre ++ some r :: post) u = some r
    ∧ loadResources init (pre ++ some r :: post) (stripVersion u) = some r
    ∧ (∀ (m : Index) (k : String) (v : Resource), mapSet m k v k = some v) := by
  have hsplit : loadResources init (pre ++ some r :: post)
      = loadResources (registerResource (loadResources init pre) (some r)) post := by
    simp [loadResources, List.foldl_append]
  have hreg : registerResource (loadResources init pre) (some r)
      = mapSet (mapSet (loadResources init pre) u r) (stripVersion u) r := by
    simp [registerResource, hu, hne]
  refine ⟨?_, ?_, fun m k v => by simp [mapSet]⟩
  · rw [hsplit, loadResources_not_regKeys _ _ _ (fun x hx => (hpost x hx).1), hreg]
    show (if u = stripVersion u then some r
      else if u = u then some r else loadResources init pre u) = some r
    by_cases h : u = stripVersion u
    · rw [if_pos h]
    · rw [if_neg h, if_pos rfl]
  · rw [hsplit, loadResources_not_regKeys _ _ _ (fun x hx => (hpost x hx).2), hreg]
    simp [mapSet]

/-- C3 witness: a single registered resource with a versioned URL is
found under both its full and its stripped URL. -/
theorem versioned_stripped_lookup_amended_witness :
    resA.url = some "u|1" ∧ ("u|1" : String) ≠ ""
    ∧ loadResources emptyIndex [some resA] "u|1" = some resA
    ∧ loadResources emptyIndex [some resA] (stripVersion "u|1") = some resA := by
  have h := versioned_stripped_lookup_amended emptyIndex [] [] resA "u|1" rfl
    (by decide) (by simp)
  exact ⟨rfl, by decide, h.1, h.2.1⟩

/-- C4 counterexample: an item whose `answerValueSet` resolves to a
ValueSet carrying a pre-expanded (but empty) `expansion.contains` list is
left unchanged: `answerOption` is not set and `answerValueSet` is not
deleted. -/
theorem contains_inlining_counterexample :
    idxEmptyContains "u" = some vsEmptyContains
    ∧ vsEmptyContains.expansion = some { contains := some [] }
    ∧ itemU.answerValueSet = some "u"
    ∧ (processItem idxEmptyContains itemU).answerValueSet = some "u"
    ∧ (processItem idxEmptyContains itemU).answerOption = none :=
  ⟨rfl, rfl, rfl, rfl, rfl⟩

/-- C4 amended: for an item whose `answerValueSet` resolves to a ValueSet
with a non-empty pre-expanded `expansion.contains` list, expansion sets
`answerOption` to one option per contains entry — preserving each entry's
system, code, display and the list order — and deletes `answerValueSet`. -/
theorem contains_inlining_amended (idx : Index) (u : String) (vs : Resource)
    (e : ExpansionObj) (l : List Concept) (it : Item)
    (havs : it.answerValueSet = some u) (hne : u ≠ "")
    (hvs : idx (stripVersion u) = some vs)
    (hexp : vs.expansion = some e) (hcont : e.contains = some l) (hl : l ≠ []) :
    (processItem idx it).answerOption =
      some (l.map (fun c =>
        { valueCoding := { system := c.system, code := c.code, display := c.display } }))
    ∧ (processItem idx it).answerValueSet = none := by
  have hopt : getOptionsFromValueSet idx u = some (containsOptions l) := by
    have hlen : (containsOptions l).length > 0 := by
      simpa [containsOptions, List.length_pos] using hl
    simp [getOptionsFromValueSet, hvs, collectOptions, hexp, hcont, hlen]
  obtain ⟨avs, ao, children⟩ := it
  cases havs
  cases children <;>
    simp [processItem, hne, hopt, Item.answerOption, Item.answerValueSet, containsOptions]

/-- C4 witness: a concrete one-entry `expansion.contains` list is inlined
verbatim and the reference key is deleted. -/
theorem contains_inlining_amended_witness :
    itemVs.answerValueSet = some "http://vs"
    ∧ idxOne (stripVersion "http://vs") = some vsOne
    ∧ (processItem idxOne itemVs).answerOption =
        some [{ valueCoding := { system := some "s", code := some "c", display := some "D" } }]
    ∧ (processItem idxOne itemVs).answerValueSet = none := by
  have h := contains_inlining_amended idxOne "http://vs" vsOne
    { contains := some [{ system := some "s", code := some "c", display := some "D" }] }
    [{ system := some "s", code := some "c", display := some "D" }] itemVs
    rfl (by decide) rfl rfl rfl (by decide)
  exact ⟨rfl, rfl, h.1, h.2⟩

/-- C5: `compose.include` rules are processed in order and accumulate: an
explicit-concept rule yields one option per concept stamped with the
rule's system, a system-only rule contributes the concepts of the indexed
resource found under that system, rules matching neither pattern
contribute nothing, and the two-rule example yields
`[{sys1,a,A}, {sys2,b,B}]` in that order. -/
theorem compose_rules_accumulate (idx : Index) (u s1 s2 a dA b dB : String)
    (vs csres : Resource)
    (hvs : idx (stripVersion u) = some vs)
    (hexp : vs.expansion = none)
    (hcomp : vs.compose = some { incl := some [
        { system := some s1, concept := some [{ system := none, code := some a, display := some dA }] },
        { system := some s2, concept := none }] })
    (hs2 : s2 ≠ "")
    (hcs : idx s2 = some csres)
    (hconc : csres.concept = some [{ system := none, code := some b, display := some dB }]) :
    getOptionsFromValueSet idx u =
      some [{ valueCoding := { system := some s1, code := some a, display := some dA } },
            { valueCoding := { system := some s2, code := some b, display := some dB } }]
    ∧ (∀ rule : IncludeRule, rule.system = none → rule.concept = none →
        ruleOptions idx rule = [])
    ∧ (∀ rule : IncludeRule, rule.system = some "" → rule.concept = none →
        ruleOptions idx rule = []) := by
  refine ⟨?_, ?_, ?_⟩
  · simp [getOptionsFromValueSet, hvs, collectOptions, hexp, hcomp, ruleOptions, hs2, hcs, hconc]
  · intro rule h1 h2
    obtain ⟨rs, rc⟩ := rule
    simp at h1 h2
    simp [ruleOptions, h1, h2]
  · intro rule h1 h2
    obtain ⟨rs, rc⟩ := rule
    simp at h1 h2
    simp [ruleOptions, h1, h2]

/-- C5 witness: the concrete two-rule ValueSet expands to the two options
in rule order. -/
theorem compose_rules_accumulate_witness :
    idxCompose (stripVersion "http://vs5") = some vsCompose
    ∧ idxCompose "sys2" = some csSys2
    ∧ getOptionsFromValueSet idxCompose "http://vs5" =
        some [{ valueCoding := { system := some "sys1", code := some "a", display := some "A" } },
              { valueCoding := { system := some "sys2", code := some "b", display := some "B" } }] := by
  have h := compose_rules_accumulate idxCompose "http://vs5" "sys1" "sys2" "a" "A" "b" "B"
    vsCompose csSys2 rfl rfl rfl (by decide) rfl rfl
  exact ⟨rfl, rfl, h.1⟩

/-- C6: normalizing a payload with no Patient resource yields the
placeholder `{resourceType: "Patient", name: null}` with the null `name`
sentinel, and the `patient` field of the normalized unit always carries
`resourceType = "Patient"` (it is never absent). -/
theorem no_patient_yields_placeholder (qmap : Index) (p : Payload) :
    (normalizeFHIRData qmap p).patient.resourceType = "Patient"
    ∧ ((∀ r ∈ extractResources p, r.resourceType ≠ "Patient") →
        (normalizeFHIRData qmap p).patient = patientPlaceholder
        ∧ patientPlaceholder.name = none) := by
  constructor
  · cases hfind : (extractResources p).find? (fun r => r.resourceType == "Patient") with
    | none => simp [normalizeFHIRData, normCore, hfind, patientPlaceholder]
    | some r =>
      have := List.find?_some hfind
      simp at this
      simp [normalizeFHIRData, normCore, hfind, this]
  · intro hall
    have hfind : (extractResources p).find? (fun r => r.resourceType == "Patient") = none := by
      rw [List.find?_eq_none]
      intro x hx
      simpa using hall x hx
    exact ⟨by simp [normalizeFHIRData, normCore, hfind], rfl⟩

/-- C6 witness: the concrete patient-less bundle normalizes to the
placeholder patient. -/
theorem no_patient_yields_placeholder_witness :
    (∀ r ∈ extractResources pNoPatient, r.resourceType ≠ "Patient")
    ∧ (normalizeFHIRData emptyIndex pNoPatient).patient = patientPlaceholder
    ∧ patientPlaceholder.name = none := by
  have hall : ∀ r ∈ extractResources pNoPatient, r.resourceType ≠ "Patient" := by decide
  have h := (no_patient_yields_placeholder emptyIndex pNoPatient).2 hall
  exact ⟨hall, h.1, h.2⟩

/-- C7: a bundle containing two QuestionnaireResponse resources
normalizes to a two-element `questionnaireResponses` list in encounter
order, `questionnaireResponse` is the first of them, and the combined
pairing loop pairs each response with its own questionnaire — resolved
through the index (with version-stripped fallback) or the stub when
unresolved. -/
theorem two_responses_paired (qmap : Index) (p : Payload)
    (es : List (Option Resource)) (qr1 qr2 : Resource)
    (hb : p.resource.resourceType = "Bundle")
    (he : p.entry = some es)
    (hqrs : (es.filterMap id).filter (fun r => r.resourceType == "QuestionnaireResponse")
      = [qr1, qr2]) :
    (normalizeFHIRData qmap p).questionnaireResponses = [qr1, qr2]
    ∧ (normalizeFHIRData qmap p).questionnaireResponse = some qr1
    ∧ combinedQRData qmap (normalizeFHIRData qmap p).questionnaireResponses
        = [mkCombined qmap 1 qr1, mkCombined qmap 2 qr2]
    ∧ (mkCombined qmap 1 qr1).questionnaireResponse = qr1
    ∧ (mkCombined qmap 2 qr2).questionnaireResponse = qr2
    ∧ (mkCombined qmap 1 qr1).questionnaire = (resolveQForQR qmap qr1).getD questionnaireStub
    ∧ (mkCombined qmap 2 qr2).questionnaire = (resolveQForQR qmap qr2).getD questionnaireStub := by
  have hext : extractResources p = es.filterMap id := by
    simp [extractResources, hb, he]
  have hlist : (normalizeFHIRData qmap p).questionnaireResponses = [qr1, qr2] := by
    simp [normalizeFHIRData, normCore, hext, hqrs]
  refine ⟨hlist, ?_, ?_, rfl, rfl, rfl, rfl⟩
  · simp [normalizeFHIRData, normCore, hext, hqrs]
  · rw [hlist]
    rfl

/-- C7 witness: the concrete two-response bundle yields the two-element
list, the first response as `questionnaireResponse`, and the pairing. -/
theorem two_responses_paired_witness :
    pTwoResponses.resource.resourceType = "Bundle"
    ∧ (normalizeFHIRData emptyIndex pTwoResponses).questionnaireResponses = [qrOne, qrTwo]
    ∧ (normalizeFHIRData emptyIndex pTwoResponses).questionnaireResponse = some qrOne
    ∧ combinedQRData emptyIndex (normalizeFHIRData emptyIndex pTwoResponses).questionnaireResponses
        = [mkCombined emptyIndex 1 qrOne, mkCombined emptyIndex 2 qrTwo] := by
  have h := two_responses_paired emptyIndex pTwoResponses
    [some { resourceType := "Patient" }, some qrOne, some qrTwo] qrOne qrTwo
    rfl rfl rfl
  exact ⟨rfl, h.1, h.2.1, h.2.2.1⟩

/-- C8 counterexample: the resolved questionnaire's `title` key is
present (the empty string), yet the assigned title is the reference
segment `"def"`, not the questionnaire's own title. -/
theorem pair_title_counterexample :
    (mkCombined qmapTitleEmpty 1 qrRefDef).questionnaire.title = some ""
    ∧ (mkCombined qmapTitleEmpty 1 qrRefDef).title = "def"
    ∧ "def" ≠ ("" : String) :=
  ⟨rfl, rfl, by decide⟩

/-- C8 amended: the assigned title is the resolved questionnaire's own
title when present and non-empty; otherwise the last path segment of the
response's reference with any `|version` suffix stripped, when that
segment is non-empty; otherwise the positional fallback
`"Questionnaire N"`. -/
theorem pair_title_amended (qmap : Index) (n : Nat) (qr : Resource) :
    (∀ t, ((resolveQForQR qmap qr).getD questionnaireStub).title = some t → t ≠ "" →
        (mkCombined qmap n qr).title = t)
    ∧ (∀ s, (((resolveQForQR qmap qr).getD questionnaireStub).title = none
          ∨ ((resolveQForQR qmap qr).getD questionnaireStub).title = some "") →
        refTitle qr.questionnaire = some s → s ≠ "" →
        (mkCombined qmap n qr).title = s)
    ∧ ((((resolveQForQR qmap qr).getD questionnaireStub).title = none
          ∨ ((resolveQForQR qmap qr).getD questionnaireStub).title = some "") →
        (refTitle qr.questionnaire = none ∨ refTitle qr.questionnaire = some "") →
        (mkCombined qmap n qr).title = "Questionnaire " ++ toString n) := by
  refine ⟨?_, ?_, ?_⟩
  · intro t ht hne
    simp [mkCombined, ht, hne]
  · intro s hti hs hne
    rcases hti with hti | hti <;> simp [mkCombined, hti, hs, hne]
  · intro hti href
    rcases hti with hti | hti <;> rcases href with href | href <;>
      simp [mkCombined, hti, href]

/-- C8 witness: the three title sources exercised on concrete pairs —
own title, reference segment, positional fallback. -/
theorem pair_title_amended_witness :
    (mkCombined qmapGoodTitle 1 qrRefGood).title = "T"
    ∧ (mkCombined qmapTitleEmpty 2 qrRefDef).title = "def"
    ∧ (mkCombined emptyIndex 3 qrNoRef).title = "Questionnaire 3" := by
  refine ⟨?_, ?_, ?_⟩
  · exact (pair_title_amended qmapGoodTitle 1 qrRefGood).1 "T" rfl (by decide)
  · exact (pair_title_amended qmapTitleEmpty 2 qrRefDef).2.1 "def" (Or.inr rfl) rfl (by decide)
  · exact (pair_title_amended emptyIndex 3 qrNoRef).2.2 (Or.inl rfl) (Or.inl rfl)

/-- C9: the persistence pass writes a file back iff it is a bare
Questionnaire (always rewritten) or a Bundle with an entry list holding
at least one Questionnaire resource; any other file is never written. -/
theorem persistence_write_iff (idx : Index) (p : Payload) :
    (expandFile idx p).isSome ↔
      (p.resource.resourceType = "Questionnaire"
       ∨ (p.resource.resourceType = "Bundle"
          ∧ ∃ es, p.entry = some es
            ∧ ∃ x ∈ es, ∃ r, x = some r ∧ r.resourceType = "Questionnaire")) := by
  by_cases hq : p.resource.resourceType = "Questionnaire"
  · simp [expandFile, hq]
  · by_cases hb : p.resource.resourceType = "Bundle"
    · cases he : p.entry with
      | none => simp [expandFile, hq, hb, he]
      | some es =>
        have hunf : expandFile idx p
            = if es.any entryIsQuestionnaire then
                some { p with entry := some (es.map (Option.map (expandResource idx))) }
              else none := by
          simp [expandFile, hq, hb, he]
        have hiff : (es.any entryIsQuestionnaire = true)
            ↔ ∃ x ∈ es, ∃ r, x = some r ∧ r.resourceType = "Questionnaire" := by
          rw [List.any_eq_true]
          constructor
          · rintro ⟨x, hx, hxq⟩
            cases x with
            | none => simp [entryIsQuestionnaire] at hxq
            | some r =>
              refine ⟨some r, hx, r, rfl, ?_⟩
              simpa [entryIsQuestionnaire] using hxq
          · rintro ⟨x, hx, r, rfl, hrq⟩
            exact ⟨some r, hx, by simp [entryIsQuestionnaire, hrq]⟩
        rw [hunf]
        by_cases hany : es.any entryIsQuestionnaire
        · simp only [if_pos hany, Option.isSome_some, true_iff]
          exact Or.inr ⟨hb, es, rfl, hiff.mp hany⟩
        · simp only [if_neg hany, Option.isSome_none, Bool.false_eq_true, false_iff]
          rintro (h | ⟨-, es', hes', hex⟩)
          · exact hq h
          · injection hes' with h'
            subst h'
            exact hany (hiff.mpr hex)
    · simp [expandFile, hq, hb]

/-- C10 counterexample: in the questionnaire library loader, a bundle
entry lacking a resource body aborts the file: the questionnaire before
the defective entry is indexed, the one after it is not — the remaining
entries of the same bundle are not processed. -/
theorem defective_entry_counterexample :
    loadLibFile emptyIndex pDefectiveEntry "http://q1" = some qLib1
    ∧ loadLibFile emptyIndex pDefectiveEntry "http://q2" = none :=
  ⟨rfl, rfl⟩

/-- C10 amended: in `loadResources` and in `normalizeFHIRData` an entry
lacking a resource body is filtered out silently and the remaining
entries are still processed; in `loadLibraries` only the entries before
the defective one are processed — the rest of that file is skipped. -/
theorem defective_entry_amended :
    (∀ (init : Index) (pre post : List (Option Resource)),
        loadResources init (pre ++ none :: post) = loadResources init (pre ++ post))
    ∧ (∀ (qmap : Index) (r0 : Resource) (pre post : List (Option Resource)),
        r0.resourceType = "Bundle" →
        normalizeFHIRData qmap { resource := r0, entry := some (pre ++ none :: post) }
          = normalizeFHIRData qmap { resource := r0, entry := some (pre ++ post) })
    ∧ (∀ (m : Index) (pre : List Resource) (post : List (Option Resource)),
        regQuestionnaires m (pre.map some ++ none :: post)
          = regQuestionnaires m (pre.map some)) := by
  refine ⟨?_, ?_, ?_⟩
  · intro init pre post
    simp [loadResources, List.foldl_append]
    rfl
  · intro qmap r0 pre post hb
    have hext : ∀ es, extractResources { resource := r0, entry := some es } = es.filterMap id :=
      fun es => by simp [extractResources, hb]
    simp [normalizeFHIRData, hext]
  · intro m pre post
    induction pre generalizing m with
    | nil => rfl
    | cons r rest ih => exact ih (registerQ m r)

/-- C10 witness: concrete instances of the three components of the
amended claim. -/
theorem defective_entry_amended_witness :
    loadResources emptyIndex [none] = loadResources emptyIndex []
    ∧ (Resource.resourceType { resourceType := "Bundle" } = "Bundle"
       ∧ normalizeFHIRData emptyIndex { resource := { resourceType := "Bundle" }, entry := some [none] }
          = normalizeFHIRData emptyIndex { resource := { resourceType := "Bundle" }, entry := some [] })
    ∧ regQuestionnaires emptyIndex ([qLib1].map some ++ none :: [some qLib2])
        = regQuestionnaires emptyIndex ([qLib1].map some) := by
  refine ⟨defective_entry_amended.1 emptyIndex [] [], ⟨rfl, ?_⟩, ?_⟩
  · exact defective_entry_amended.2.1 emptyIndex { resourceType := "Bundle" } [] [] rfl
  · exact defective_entry_amended.2.2 emptyIndex [qLib1] [some qLib2]

end FhirPdf
